import Mathlib

/-!
Verification of the multi-user blog system (`gestor_datos.py`,
`blog_multi_usuario.py`): a shallow embedding of the persistence layer and the
domain layer, followed by theorems about the specified properties.

Modelling conventions:
* Python strings are `String`; `str.strip`, `str.lower` and `str.split(",")`
  are modelled on the underlying character lists (`stripChars`, `Char.toLower`,
  `splitComma`), covering the ASCII range the repository manipulates.
* A Python dict is an association list (`Rec`); `dict.get` takes the first
  binding.  Values are stratified: flat values (`FVal`) for the fields of
  authors and comments, and `Val` adds the list-of-comment-records shape that
  posts carry.  This covers every shape the program reads or writes.
* A raised exception is an `Err` value in `Except`; `Err.tipoError` stands for
  the non-domain runtime errors (TypeError/AttributeError) Python would raise
  on ill-typed data, which the code does not catch.
* Every mutating domain operation returns `(outcome, file-contents-after)`:
  the second component is the collection as persisted, which equals the input
  whenever the operation raised before reaching `guardar_datos`.
-/

set_option autoImplicit false

deriving instance DecidableEq for Except

namespace Blog

/-- Flat Python values: the field values of author and comment records. -/
inductive FVal where
  | s (x : String)
  | vint (n : Int)
  | none
  | slist (xs : List String)
  deriving DecidableEq, Repr

/-- A flat record (Python dict with flat values): authors, comments, CSV rows. -/
abbrev FRec := List (String × FVal)

/-- Post-level Python values: flat values or a list of comment records. -/
inductive Val where
  | f (v : FVal)
  | rlist (rs : List FRec)
  deriving DecidableEq, Repr

/-- A record (Python dict) as the domain layer manipulates it. -/
abbrev Rec := List (String × Val)

/-- `dict.get(k, d)` on a flat record: first binding of `k`, else `d`. -/
def frecGetD (r : FRec) (k : String) (d : FVal) : FVal :=
  match r.find? (fun kv => kv.1 == k) with
  | some kv => kv.2
  | Option.none => d

/-- `dict.get(k)` on a flat record (default `None`). -/
def frecGet (r : FRec) (k : String) : FVal := frecGetD r k FVal.none

/-- `dict.get(k, d)` on a record. -/
def recGetD (r : Rec) (k : String) (d : Val) : Val :=
  match r.find? (fun kv => kv.1 == k) with
  | some kv => kv.2
  | Option.none => d

/-- `dict.get(k)` on a record (default `None`). -/
def recGet (r : Rec) (k : String) : Val := recGetD r k (Val.f FVal.none)

/-- `d[k] = v` on a record: replace the first binding in place, else append
(Python dicts keep insertion order). -/
def recSet (r : Rec) (k : String) (v : Val) : Rec :=
  match r with
  | [] => [(k, v)]
  | kv :: t => if kv.1 = k then (k, v) :: t else kv :: recSet t k v

/-- `d[k] = v` on a flat record. -/
def frecSet (r : FRec) (k : String) (v : FVal) : FRec :=
  match r with
  | [] => [(k, v)]
  | kv :: t => if kv.1 = k then (k, v) :: t else kv :: frecSet t k v

/-! ## String helpers modelling Python's `str` methods (ASCII range) -/

/-- The whitespace `str.strip()` removes (space, `\t\n\v\f\r`). -/
def esEspacio (c : Char) : Bool :=
  decide (c.toNat = 32 ∨ (9 ≤ c.toNat ∧ c.toNat ≤ 13))

/-- `str.strip()` on a character list: drop whitespace at both ends. -/
def stripChars (cs : List Char) : List Char :=
  ((cs.dropWhile esEspacio).reverse.dropWhile esEspacio).reverse

/-- `str.strip()`. -/
def pyStrip (s : String) : String := ⟨stripChars s.data⟩

/-- `str.lower()` (ASCII model, via `Char.toLower`). -/
def pyLower (s : String) : String := ⟨s.data.map Char.toLower⟩

/-- `s.split(",")` on a character list. -/
def splitComma : List Char → List (List Char)
  | [] => [[]]
  | c :: t =>
    match splitComma t with
    | [] => [[c]]
    | g :: gs => if c = ',' then [] :: g :: gs else (c :: g) :: gs

/-- `s.split(",")`. -/
def pySplitComma (s : String) : List String :=
  (splitComma s.data).map (fun cs => String.mk cs)

/-- `_es_str_no_vacio`: a string that is non-empty after `strip()`
(the `isinstance(valor, str)` guard is statically true here). -/
def esStrNoVacio (s : String) : Bool := pyStrip s ≠ ""

/-- Python `str(v)` for a flat value (`repr` of strings inside containers is
simplified to single quotes, which the repository's data never exercises). -/
def fvalStr : FVal → String
  | .s x => x
  | .vint n => toString n
  | .none => "None"
  | .slist xs =>
      "[" ++ String.intercalate ", " (xs.map (fun x => "'" ++ x ++ "'")) ++ "]"

/-- Python `str(v)` for a post-level value. -/
def valStr : Val → String
  | .f v => fvalStr v
  | .rlist rs =>
      "[" ++ String.intercalate ", "
        (rs.map (fun r =>
          "\x7b" ++ String.intercalate ", "
            (r.map (fun kv => "'" ++ kv.1 ++ "': '" ++ fvalStr kv.2 ++ "'")) ++
          "\x7d")) ++ "]"

/-- Python truthiness of a flat value. -/
def fvalTruthy : FVal → Bool
  | .s x => x ≠ ""
  | .vint n => n ≠ 0
  | .none => false
  | .slist xs => !xs.isEmpty

/-- Python truthiness of a post-level value. -/
def valTruthy : Val → Bool
  | .f v => fvalTruthy v
  | .rlist rs => !rs.isEmpty

/-! ## The persistence layer (`gestor_datos.py`) -/

/-- `CAMPOS_AUTORES`. -/
def CAMPOS_AUTORES : List String := ["id_autor", "nombre_autor", "email", "password_hash"]

/-- `s.endswith(suf)`. -/
def terminaEn (s suf : String) : Bool := suf.data.isSuffixOf s.data

/-- `_es_csv`: the path ends in `.csv` (case-insensitive). -/
def esCsv (filepath : String) : Bool := terminaEn (pyLower filepath) ".csv"

/-- `_es_json`: the path ends in `.json` (case-insensitive). -/
def esJson (filepath : String) : Bool := terminaEn (pyLower filepath) ".json"

/-- `_campos_csv_para`: always the author columns in this project. -/
def camposCsvPara (_filepath : String) : List String := CAMPOS_AUTORES

/-- What a data file can hold.  `csv` carries the parsed header and cell rows
(the `csv` module round-trips cells exactly); `jlist` a JSON array of objects
as the repository writes them; `jotro` JSON that parses but is not a list;
`ilegible` bytes that fail decoding or parsing. -/
inductive Archivo where
  | ausente
  | ilegible
  | csv (header : List String) (rows : List (List String))
  | jlist (items : List Rec)
  | jotro
  deriving DecidableEq, Repr

/-- `inicializar_archivo`: create an empty, correctly-shaped file if absent. -/
def inicializar_archivo (filepath : String) (a : Archivo) : Archivo :=
  match a with
  | .ausente =>
      if esCsv filepath then .csv (camposCsvPara filepath) []
      else if esJson filepath then .jlist []
      else .ausente
  | _ => a

/-- One CSV row through `csv.DictReader` plus the `str(fila.get(k, "")).strip()`
normalisation of `cargar_datos`: header position `i` reads cell `i`, a short
row yields `restval=None`, hence the string `"None"`. -/
def filaARec (header : List String) (row : List String) : Rec :=
  (header.enum).map (fun ik =>
    (ik.2, Val.f (.s (pyStrip (row.getD ik.1 "None")))))

/-- `cargar_datos`: returns the loaded collection and the file afterwards
(the file changes only through `inicializar_archivo`).  Unreadable or
malformed content yields the empty collection. -/
def cargar_datos (filepath : String) (a : Archivo) : List Rec × Archivo :=
  let a' := inicializar_archivo filepath a
  if esCsv filepath then
    match a' with
    | .csv header rows => ((rows.filter (fun r => !r.isEmpty)).map (filaARec header), a')
    | _ => ([], a')
  else if esJson filepath then
    match a' with
    | .jlist items => (items, a')
    | _ => ([], a')
  else ([], a')

/-- `str(item.get(k, "") if item.get(k, "") is not None else "")`:
the cell written for field `k` of `item`. -/
def celdaCsv (item : Rec) (k : String) : String :=
  match recGetD item k (Val.f (.s "")) with
  | .f .none => ""
  | v => valStr v

/-- `guardar_datos`: serialize the collection.  CSV keeps only the fixed
columns, value-coerced to text; JSON stores the structure verbatim; any other
extension writes nothing and leaves the file as it was. -/
def guardar_datos (filepath : String) (a : Archivo) (datos : List Rec) : Archivo :=
  if esCsv filepath then
    .csv (camposCsvPara filepath)
      (datos.map (fun item => (camposCsvPara filepath).map (celdaCsv item)))
  else if esJson filepath then .jlist datos
  else a

/-! ## Email validation (`_EMAIL_RE`, `_validar_email`) -/

/-- `[A-Za-z]` (codes 65-90 and 97-122). -/
def esAlfa (c : Char) : Bool :=
  decide ((65 ≤ c.toNat ∧ c.toNat ≤ 90) ∨ (97 ≤ c.toNat ∧ c.toNat ≤ 122))

/-- Characters of `[A-Za-z0-9._%+-]` (the local part of `_EMAIL_RE`):
letters, digits, and `.` (46), `_` (95), `%` (37), `+` (43), `-` (45). -/
def inClase1 (c : Char) : Bool :=
  decide ((65 ≤ c.toNat ∧ c.toNat ≤ 90) ∨ (97 ≤ c.toNat ∧ c.toNat ≤ 122) ∨
    (48 ≤ c.toNat ∧ c.toNat ≤ 57) ∨ c.toNat = 46 ∨ c.toNat = 95 ∨
    c.toNat = 37 ∨ c.toNat = 43 ∨ c.toNat = 45)

/-- Characters of `[A-Za-z0-9.-]` (the domain part of `_EMAIL_RE`):
letters, digits, `.` (46) and `-` (45). -/
def inClaseDom (c : Char) : Bool :=
  decide ((65 ≤ c.toNat ∧ c.toNat ≤ 90) ∨ (97 ≤ c.toNat ∧ c.toNat ≤ 122) ∨
    (48 ≤ c.toNat ∧ c.toNat ≤ 57) ∨ c.toNat = 46 ∨ c.toNat = 45)

/-- `@` (code 64). -/
def esArroba (c : Char) : Bool := decide (c.toNat = 64)

/-- `.` (code 46). -/
def esPunto (c : Char) : Bool := decide (c.toNat = 46)

/-- Newline (code 10). -/
def esSaltoLinea (c : Char) : Bool := decide (c.toNat = 10)

/-- Match of `[A-Za-z0-9.-]+\.[A-Za-z]{2,}$` against the part after `@`:
the domain must decompose at its last dot into a non-empty `[A-Za-z0-9.-]+`
prefix and an alphabetic tail of length at least two. -/
def emailDom (dom : List Char) : Bool :=
  match dom.reverse.drop (dom.reverse.takeWhile esAlfa).length with
  | [] => false
  | c2 :: drev =>
      decide (2 ≤ (dom.reverse.takeWhile esAlfa).length) && esPunto c2 &&
        !drev.isEmpty && drev.all inClaseDom

/-- Full match of `^[A-Za-z0-9._%+-]+@[A-Za-z0-9.-]+\.[A-Za-z]{2,}$` on a
character list: a non-empty local part, `@`, then the domain. -/
def emailCore (cs : List Char) : Bool :=
  match cs.drop (cs.takeWhile inClase1).length with
  | [] => false
  | c :: dom => !(cs.takeWhile inClase1).isEmpty && esArroba c && emailDom dom

/-- `_EMAIL_RE.match(email)` succeeds: the `$` anchor also matches just
before a final newline. -/
def emailMatch (s : String) : Bool :=
  emailCore s.data ||
    (match s.data.getLast? with
     | some c => esSaltoLinea c && emailCore s.data.dropLast
     | _ => false)

/-- `_validar_email` succeeds (it raises `ValidacionError` otherwise). -/
def validarEmailB (email : String) : Bool := esStrNoVacio email && emailMatch email

/-! ## `int(...)` and identifier generation -/

/-- Value of a non-empty digit string. -/
def digitsToNat (ds : List Char) : Nat :=
  ds.foldl (fun acc c => acc * 10 + (c.toNat - 48)) 0

/-- Python `int(s)` on a string: optional surrounding whitespace, optional
sign, then decimal digits; anything else raises `ValueError`. -/
def parseIntChars (cs : List Char) : Option Int :=
  match stripChars cs with
  | '+' :: ds =>
      if !ds.isEmpty && ds.all Char.isDigit then some (Int.ofNat (digitsToNat ds))
      else Option.none
  | '-' :: ds =>
      if !ds.isEmpty && ds.all Char.isDigit then some (-(Int.ofNat (digitsToNat ds)))
      else Option.none
  | ds =>
      if !ds.isEmpty && ds.all Char.isDigit then some (Int.ofNat (digitsToNat ds))
      else Option.none

/-- The exceptions the embedded code can raise.  The first five are the
domain errors; `tipoError` stands for the TypeError/AttributeError Python
raises on ill-typed data and never catches. -/
inductive Err where
  | validacion
  | emailDuplicado
  | autorNoEncontrado
  | postNoEncontrado
  | accesoNoAutorizado
  | tipoError
  deriving DecidableEq, Repr

/-- Outcome of Python `int(v)` on a value. -/
inductive NumRes where
  | ok (n : Int)
  | valueErr
  | typeErr
  deriving DecidableEq, Repr

/-- `int(v)` on a flat value. -/
def pyIntF : FVal → NumRes
  | .vint n => .ok n
  | .s x => match parseIntChars x.data with
    | some n => .ok n
    | Option.none => .valueErr
  | .none => .typeErr
  | .slist _ => .typeErr

/-- `int(v)` on a post-level value. -/
def pyIntVal : Val → NumRes
  | .f v => pyIntF v
  | .rlist _ => .typeErr

/-- `int()` exceptions inside the `max(...)` generator of `_generar_id`:
only `ValueError` is caught by the caller. -/
inductive PyNum where
  | valueErr
  | typeErr
  deriving DecidableEq, Repr

/-- `int(it.get(clave_id, 0))` over the items, left to right; the first
exception wins, as with Python's lazily consumed generator. -/
def leerIds (clave : String) : List Rec → Except PyNum (List Int)
  | [] => .ok []
  | it :: t =>
    match pyIntVal (recGetD it clave (Val.f (.vint 0))) with
    | .ok n => (leerIds clave t).map (fun ns => n :: ns)
    | .valueErr => .error .valueErr
    | .typeErr => .error .typeErr

/-- `int(c.get(clave, 0))` over comment records. -/
def leerIdsF (clave : String) : List FRec → Except PyNum (List Int)
  | [] => .ok []
  | c :: t =>
    match pyIntF (frecGetD c clave (FVal.vint 0)) with
    | .ok n => (leerIdsF clave t).map (fun ns => n :: ns)
    | .valueErr => .error .valueErr
    | .typeErr => .error .typeErr

/-- `_generar_id`: 1 on an empty list, else `max(int ids) + 1`; a
`ValueError` collapses the max to 0, a `TypeError` propagates. -/
def generar_id (items : List Rec) (clave_id : String) : Except Err Int :=
  if items.isEmpty then .ok 1
  else
    match leerIds clave_id items with
    | .ok [] => .ok 1
    | .ok (n :: ns) => .ok (ns.foldl max n + 1)
    | .error .valueErr => .ok 1
    | .error .typeErr => .error .tipoError

/-- `post.get("comentarios") or []`, as the comment helpers read it: the
empty list when the field is falsy, the records when it is a comment list,
and a crash when it is any other truthy value (Python would fail iterating
it as a list of dicts). -/
def getComentarios (post : Rec) : Except Err (List FRec) :=
  match recGet post "comentarios" with
  | .rlist rs => .ok rs
  | v => if valTruthy v then .error .tipoError else .ok []

/-- `_generar_id_comentario`. -/
def generar_id_comentario (post : Rec) : Except Err Int := do
  let comentarios ← getComentarios post
  if comentarios.isEmpty then return 1
  match leerIdsF "id_comentario" comentarios with
  | .ok [] => return 1
  | .ok (n :: ns) => return (ns.foldl max n + 1)
  | .error .valueErr => return 1
  | .error .typeErr => throw Err.tipoError

/-! ## Tags (`_normalizar_tags`, `_parsear_tags`) -/

/-- The loop of `_normalizar_tags`, carrying the `vistos` set. -/
def normalizar_tags_aux : List String → List String → List String
  | [], _ => []
  | t :: ts, vistos =>
    let tt := pyLower (pyStrip t)
    if tt ≠ "" ∧ tt ∉ vistos then tt :: normalizar_tags_aux ts (tt :: vistos)
    else normalizar_tags_aux ts vistos

/-- `_normalizar_tags` on a list of strings (elements are typed strings here,
so the `isinstance(t, str)` guard is statically true). -/
def normalizar_tags (tags : List String) : List String := normalizar_tags_aux tags []

/-- `_parsear_tags`: `None` gives `[]`; a list is normalized; a string is
split on commas, stripped and normalized; any other shape (and a list whose
elements are not strings) raises `ValidacionError`. -/
def parsear_tags : Val → Except Err (List String)
  | .f .none => .ok []
  | .f (.slist xs) => .ok (normalizar_tags xs)
  | .f (.s x) => .ok (normalizar_tags ((pySplitComma x).map pyStrip))
  | .f (.vint _) => .error .validacion
  | .rlist _ => .error .validacion

/-! ## Domain layer: authors -/

/-- `"k" in d` for a record. -/
def recHasKey (r : Rec) (k : String) : Bool := r.any (fun kv => kv.1 == k)

/-- `"k" in d` for a flat record. -/
def frecHasKey (r : FRec) (k : String) : Bool := r.any (fun kv => kv.1 == k)

/-- `_es_str_no_vacio` on a dynamically typed value. -/
def esStrNoVacioVal : Val → Bool
  | .f (.s x) => esStrNoVacio x
  | _ => false

/-- `v.strip().lower()` on a value: crashes unless it is a string. -/
def valStripLower : Val → Except Err String
  | .f (.s x) => .ok (pyLower (pyStrip x))
  | _ => .error .tipoError

/-- First index whose record stores the string `idv` under `key`. -/
def idxPorCampo (key idv : String) (l : List Rec) : Option Nat :=
  l.findIdx? (fun p => recGet p key == Val.f (.s idv))

/-- The scan `for a in autores: if a.get("email", "").strip().lower() == email_l`. -/
def buscarEmailAux (emailL : String) : List Rec → Except Err (Option Rec)
  | [] => .ok Option.none
  | a :: t => do
      let e ← valStripLower (recGetD a "email" (Val.f (.s "")))
      if e = emailL then pure (some a) else buscarEmailAux emailL t

/-- `crear_autor`, up to the point where the new collection is saved. -/
def crear_autor_core (autores : List Rec) (nombre_autor email password_hash : String) :
    Except Err (Rec × List Rec) := do
  if !esStrNoVacio nombre_autor then throw Err.validacion
  if !validarEmailB email then throw Err.validacion
  let existente ← buscarEmailAux (pyLower (pyStrip email)) autores
  if existente.isSome then throw Err.emailDuplicado
  let nuevo_id ← generar_id autores "id_autor"
  let autor : Rec := [
    ("id_autor", .f (.s (toString nuevo_id))),
    ("nombre_autor", .f (.s (pyStrip nombre_autor))),
    ("email", .f (.s (pyLower (pyStrip email)))),
    ("password_hash", .f (.s (pyStrip password_hash)))]
  pure (autor, autores ++ [autor])

/-- `crear_autor`: outcome and the collection as persisted. -/
def crear_autor (autores : List Rec) (nombre_autor email password_hash : String) :
    Except Err Rec × List Rec :=
  match crear_autor_core autores nombre_autor email password_hash with
  | .ok (a, st) => (.ok a, st)
  | .error e => (.error e, autores)

/-- `buscar_autor_por_id`. -/
def buscar_autor_por_id (autores : List Rec) (id_autor : String) : Option Rec :=
  autores.find? (fun a => recGet a "id_autor" == Val.f (.s id_autor))

/-- `buscar_autor_por_email`. -/
def buscar_autor_por_email (autores : List Rec) (email : String) :
    Except Err (Option Rec) := do
  if !validarEmailB email then throw Err.validacion
  buscarEmailAux (pyLower (pyStrip email)) autores

/-- The uniqueness scan of `actualizar_autor` (the id test short-circuits
before the email of the same author is touched). -/
def checkEmailUnico (idStr nuevoEmail : String) : List Rec → Except Err Unit
  | [] => .ok ()
  | a :: t => do
      if recGet a "id_autor" ≠ Val.f (.s idStr) then
        let e ← valStripLower (recGetD a "email" (Val.f (.s "")))
        if e = nuevoEmail then throw Err.emailDuplicado
      checkEmailUnico idStr nuevoEmail t

/-- `actualizar_autor`, up to the save. -/
def actualizar_autor_core (autores : List Rec) (id_autor : String)
    (datos_nuevos : Rec) : Except Err (Rec × List Rec) := do
  match idxPorCampo "id_autor" id_autor autores with
  | Option.none => throw Err.autorNoEncontrado
  | some idx => do
    let mut autor := autores.getD idx []
    if recHasKey datos_nuevos "nombre_autor" then
      let v := recGet datos_nuevos "nombre_autor"
      if !esStrNoVacioVal v then throw Err.validacion
      autor := recSet autor "nombre_autor" (.f (.s (pyStrip (valStr v))))
    if recHasKey datos_nuevos "email" then
      let nuevo_email := pyLower (pyStrip (valStr (recGet datos_nuevos "email")))
      if !validarEmailB nuevo_email then throw Err.validacion
      checkEmailUnico id_autor nuevo_email autores
      autor := recSet autor "email" (.f (.s nuevo_email))
    if recHasKey datos_nuevos "password_hash" then
      let pv := recGet datos_nuevos "password_hash"
      autor := recSet autor "password_hash"
        (.f (.s (if valTruthy pv then pyStrip (valStr pv) else "")))
    pure (autor, autores.set idx autor)

/-- `actualizar_autor`: outcome and the collection as persisted. -/
def actualizar_autor (autores : List Rec) (id_autor : String) (datos_nuevos : Rec) :
    Except Err Rec × List Rec :=
  match actualizar_autor_core autores id_autor datos_nuevos with
  | .ok (a, st) => (.ok a, st)
  | .error e => (.error e, autores)

/-- `eliminar_autor`: drop every record with the id; save only if one went. -/
def eliminar_autor (autores : List Rec) (id_autor : String) :
    Except Err Bool × List Rec :=
  let quedan := autores.filter (fun a => recGet a "id_autor" ≠ Val.f (.s id_autor))
  if quedan.length < autores.length then (.ok true, quedan) else (.ok false, autores)

/-! ## Domain layer: posts -/

/-- `crear_post`, up to the save.  `now` stands for `_ahora_str()`;
`validar_autor_en` carries the loaded author collection when the option is
passed. -/
def crear_post_core (posts : List Rec) (id_autor_en_sesion titulo contenido : String)
    (tags : Val) (validar_autor_en : Option (List Rec))
    (fecha_publicacion : Option String) (now : String) :
    Except Err (Rec × List Rec) := do
  if !esStrNoVacio titulo then throw Err.validacion
  if !esStrNoVacio contenido then throw Err.validacion
  match validar_autor_en with
  | some autores =>
      if (buscar_autor_por_id autores id_autor_en_sesion).isNone then
        throw Err.autorNoEncontrado
  | Option.none => pure ()
  let nuevo_id ← generar_id posts "id_post"
  let fecha :=
    match fecha_publicacion with
    | some f => if esStrNoVacio f then pyStrip f else now
    | Option.none => now
  let tgs ← parsear_tags tags
  let post : Rec := [
    ("id_post", .f (.s (toString nuevo_id))),
    ("id_autor", .f (.s id_autor_en_sesion)),
    ("titulo", .f (.s (pyStrip titulo))),
    ("contenido", .f (.s (pyStrip contenido))),
    ("fecha_publicacion", .f (.s fecha)),
    ("tags", .f (.slist tgs)),
    ("comentarios", .rlist [])]
  pure (post, posts ++ [post])

/-- `crear_post`: outcome and the post collection as persisted. -/
def crear_post (posts : List Rec) (id_autor_en_sesion titulo contenido : String)
    (tags : Val) (validar_autor_en : Option (List Rec))
    (fecha_publicacion : Option String) (now : String) :
    Except Err Rec × List Rec :=
  match crear_post_core posts id_autor_en_sesion titulo contenido tags
      validar_autor_en fecha_publicacion now with
  | .ok (p, st) => (.ok p, st)
  | .error e => (.error e, posts)

/-- `actualizar_post`, up to the save. -/
def actualizar_post_core (posts : List Rec) (id_post id_autor_en_sesion : String)
    (datos_nuevos : Rec) : Except Err (Rec × List Rec) := do
  match idxPorCampo "id_post" id_post posts with
  | Option.none => throw Err.postNoEncontrado
  | some idx => do
    let mut post := posts.getD idx []
    if recGet post "id_autor" ≠ Val.f (.s id_autor_en_sesion) then
      throw Err.accesoNoAutorizado
    if recHasKey datos_nuevos "titulo" then
      let v := recGet datos_nuevos "titulo"
      if !esStrNoVacioVal v then throw Err.validacion
      post := recSet post "titulo" (.f (.s (pyStrip (valStr v))))
    if recHasKey datos_nuevos "contenido" then
      let v := recGet datos_nuevos "contenido"
      if !esStrNoVacioVal v then throw Err.validacion
      post := recSet post "contenido" (.f (.s (pyStrip (valStr v))))
    if recHasKey datos_nuevos "tags" then
      let tgs ← parsear_tags (recGet datos_nuevos "tags")
      post := recSet post "tags" (.f (.slist tgs))
    pure (post, posts.set idx post)

/-- `actualizar_post`: outcome and the post collection as persisted. -/
def actualizar_post (posts : List Rec) (id_post id_autor_en_sesion : String)
    (datos_nuevos : Rec) : Except Err Rec × List Rec :=
  match actualizar_post_core posts id_post id_autor_en_sesion datos_nuevos with
  | .ok (p, st) => (.ok p, st)
  | .error e => (.error e, posts)

/-- `eliminar_post`, up to the save. -/
def eliminar_post_core (posts : List Rec) (id_post id_autor_en_sesion : String) :
    Except Err (Bool × List Rec) := do
  match posts.find? (fun p => recGet p "id_post" == Val.f (.s id_post)) with
  | Option.none => pure (false, posts)
  | some post => do
    if recGet post "id_autor" ≠ Val.f (.s id_autor_en_sesion) then
      throw Err.accesoNoAutorizado
    pure (true, posts.filter (fun p => recGet p "id_post" ≠ Val.f (.s id_post)))

/-- `eliminar_post`: outcome and the post collection as persisted. -/
def eliminar_post (posts : List Rec) (id_post id_autor_en_sesion : String) :
    Except Err Bool × List Rec :=
  match eliminar_post_core posts id_post id_autor_en_sesion with
  | .ok (b, st) => (.ok b, st)
  | .error e => (.error e, posts)

/-! ## Domain layer: comments -/

/-- `agregar_comentario_a_post`, up to the save. -/
def agregar_comentario_core (posts : List Rec) (id_post autor contenido : String)
    (id_autor : Option String) (now : String) : Except Err (FRec × List Rec) := do
  if !esStrNoVacio autor then throw Err.validacion
  if !esStrNoVacio contenido then throw Err.validacion
  match idxPorCampo "id_post" id_post posts with
  | Option.none => throw Err.postNoEncontrado
  | some idx => do
    let post := posts.getD idx []
    let comentarios ← getComentarios post
    let nuevo_id ← generar_id_comentario post
    let comentario : FRec := [
      ("id_comentario", .s (toString nuevo_id)),
      ("autor", .s (pyStrip autor)),
      ("contenido", .s (pyStrip contenido)),
      ("fecha", .s now),
      ("id_autor", .s (match id_autor with | some i => i | Option.none => ""))]
    let post' := recSet post "comentarios" (.rlist (comentarios ++ [comentario]))
    pure (comentario, posts.set idx post')

/-- `agregar_comentario_a_post`: outcome and the collection as persisted. -/
def agregar_comentario_a_post (posts : List Rec) (id_post autor contenido : String)
    (id_autor : Option String) (now : String) : Except Err FRec × List Rec :=
  match agregar_comentario_core posts id_post autor contenido id_autor now with
  | .ok (c, st) => (.ok c, st)
  | .error e => (.error e, posts)

/-- `eliminar_comentario_de_post`, up to the save. -/
def eliminar_comentario_core (posts : List Rec) (id_post id_comentario : String)
    (id_autor_en_sesion : Option String) : Except Err (Bool × List Rec) := do
  match idxPorCampo "id_post" id_post posts with
  | Option.none => throw Err.postNoEncontrado
  | some pidx => do
    let post := posts.getD pidx []
    let comentarios ← getComentarios post
    match comentarios.find? (fun c => frecGet c "id_comentario" == FVal.s id_comentario) with
    | Option.none => pure (false, posts)
    | some c => do
      let stored := frecGet c "id_autor"
      if fvalTruthy stored ∧ id_autor_en_sesion.isSome then
        if fvalStr stored ≠ id_autor_en_sesion.getD "" then
          throw Err.accesoNoAutorizado
      let comentarios' :=
        comentarios.filter (fun c => frecGet c "id_comentario" ≠ FVal.s id_comentario)
      let post' := recSet post "comentarios" (.rlist comentarios')
      pure (true, posts.set pidx post')

/-- `eliminar_comentario_de_post`: outcome and the collection as persisted. -/
def eliminar_comentario_de_post (posts : List Rec) (id_post id_comentario : String)
    (id_autor_en_sesion : Option String) : Except Err Bool × List Rec :=
  match eliminar_comentario_core posts id_post id_comentario id_autor_en_sesion with
  | .ok (b, st) => (.ok b, st)
  | .error e => (.error e, posts)

/-- `actualizar_comentario_de_post`, up to the save. -/
def actualizar_comentario_core (posts : List Rec) (id_post id_comentario : String)
    (datos_nuevos : FRec) (id_autor_en_sesion : Option String) :
    Except Err (FRec × List Rec) := do
  match idxPorCampo "id_post" id_post posts with
  | Option.none => throw Err.postNoEncontrado
  | some pidx => do
    let post := posts.getD pidx []
    let comentarios ← getComentarios post
    match comentarios.findIdx? (fun c => frecGet c "id_comentario" == FVal.s id_comentario) with
    | Option.none => throw Err.validacion
    | some cidx => do
      let mut comentario := comentarios.getD cidx []
      let stored := frecGet comentario "id_autor"
      if fvalTruthy stored ∧ id_autor_en_sesion.isSome then
        if fvalStr stored ≠ id_autor_en_sesion.getD "" then
          throw Err.accesoNoAutorizado
      if frecHasKey datos_nuevos "contenido" then
        let v := frecGetD datos_nuevos "contenido" FVal.none
        let nuevo := if v = FVal.none then "" else fvalStr v
        if !esStrNoVacio nuevo then throw Err.validacion
        comentario := frecSet comentario "contenido" (.s (pyStrip nuevo))
      let comentarios' := comentarios.set cidx comentario
      let post' := recSet post "comentarios" (.rlist comentarios')
      pure (comentario, posts.set pidx post')

/-- `actualizar_comentario_de_post`: outcome and the collection as persisted. -/
def actualizar_comentario_de_post (posts : List Rec) (id_post id_comentario : String)
    (datos_nuevos : FRec) (id_autor_en_sesion : Option String) :
    Except Err FRec × List Rec :=
  match actualizar_comentario_core posts id_post id_comentario datos_nuevos
      id_autor_en_sesion with
  | .ok (c, st) => (.ok c, st)
  | .error e => (.error e, posts)

/-- The canonicalization the round-trip claim states for row-oriented storage:
values of known fields coerced to strings, missing fields empty, unknown
fields dropped (no trimming). -/
def canonCsvReclamada (r : Rec) : Rec :=
  CAMPOS_AUTORES.map (fun k => (k, Val.f (.s (celdaCsv r k))))

/-- The canonicalization the CSV round trip actually performs: the coerced
value of each known field, additionally trimmed by the `.strip()` in
`cargar_datos`. -/
def canonCsvReal (r : Rec) : Rec :=
  CAMPOS_AUTORES.map (fun k => (k, Val.f (.s (pyStrip (celdaCsv r k)))))

/-! # Theorems -/

/-! ## Generic helper lemmas -/

theorem terminaEn_json_no_csv (s : String) :
    terminaEn s ".json" = true → terminaEn s ".csv" = false := by
  unfold terminaEn
  cases h : s.data.reverse with
  | nil => intro hj; simp [List.isSuffixOf, List.isPrefixOf, h] at hj
  | cons c t =>
      intro hj
      simp only [List.isSuffixOf, h] at hj ⊢
      have hc : c = 'n' := by
        by_contra hne
        simp [List.isPrefixOf, show ('n' == c) = false by simpa using Ne.symm hne] at hj
      subst hc
      simp [List.isPrefixOf]

theorem list_find_eq_none_of_all {α : Type} (p : α → Bool) (l : List α)
    (h : ∀ x ∈ l, p x = false) : l.find? p = Option.none := by
  rw [List.find?_eq_none]
  intro x hx
  simp [h x hx]

theorem list_find_false {α : Type} (l : List α) :
    l.find? (fun _ => false) = Option.none :=
  list_find_eq_none_of_all _ l (fun _ _ => rfl)

/-! ## C6: load never fails -/

/-- C6: `cargar_datos` never propagates a parse failure to its caller (its
result type is total): an absent file is initialized first and the empty
collection is returned; unreadable or malformed content, and JSON whose
top-level value is not a list, also yield the empty collection. -/
theorem C6_cargar_nunca_falla (filepath : String) :
    (esCsv filepath = true →
      cargar_datos filepath .ausente = ([], .csv CAMPOS_AUTORES []) ∧
      cargar_datos filepath .ilegible = ([], .ilegible)) ∧
    (esJson filepath = true →
      cargar_datos filepath .ausente = ([], .jlist []) ∧
      cargar_datos filepath .ilegible = ([], .ilegible) ∧
      cargar_datos filepath .jotro = ([], .jotro)) := by
  constructor
  · intro hcsv
    constructor <;> simp [cargar_datos, inicializar_archivo, hcsv, camposCsvPara]
  · intro hj
    have hncsv : esCsv filepath = false := terminaEn_json_no_csv _ hj
    refine ⟨?_, ?_, ?_⟩ <;>
      simp [cargar_datos, inicializar_archivo, hj, hncsv, camposCsvPara]

/-- Witness for C6 at concrete paths. -/
theorem C6_cargar_nunca_falla_witness :
    cargar_datos "autores.csv" .ausente = ([], .csv CAMPOS_AUTORES []) ∧
    cargar_datos "posts.json" .jotro = ([], .jotro) :=
  ⟨((C6_cargar_nunca_falla "autores.csv").1 (by decide)).1,
   ((C6_cargar_nunca_falla "posts.json").2 (by decide)).2.2⟩

/-! ## C10: domain errors leave the persisted collection unchanged -/

/-- C10: every mutating domain operation is atomic with respect to raised
errors: whenever the outcome is an error, the persisted collection (the
second component) is exactly the input collection, because `guardar_datos`
is reached only after all validation, existence and authorization checks. -/
theorem C10_atomicidad_errores :
    ∀ (st : List Rec) (err : Err),
      (∀ n e p, (crear_autor st n e p).1 = .error err →
        (crear_autor st n e p).2 = st) ∧
      (∀ i d, (actualizar_autor st i d).1 = .error err →
        (actualizar_autor st i d).2 = st) ∧
      (∀ i, (eliminar_autor st i).1 = .error err →
        (eliminar_autor st i).2 = st) ∧
      (∀ a t c tg va f now, (crear_post st a t c tg va f now).1 = .error err →
        (crear_post st a t c tg va f now).2 = st) ∧
      (∀ i a d, (actualizar_post st i a d).1 = .error err →
        (actualizar_post st i a d).2 = st) ∧
      (∀ i a, (eliminar_post st i a).1 = .error err →
        (eliminar_post st i a).2 = st) ∧
      (∀ i au c ia now, (agregar_comentario_a_post st i au c ia now).1 = .error err →
        (agregar_comentario_a_post st i au c ia now).2 = st) ∧
      (∀ i ic ia, (eliminar_comentario_de_post st i ic ia).1 = .error err →
        (eliminar_comentario_de_post st i ic ia).2 = st) ∧
      (∀ i ic d ia, (actualizar_comentario_de_post st i ic d ia).1 = .error err →
        (actualizar_comentario_de_post st i ic d ia).2 = st) := by
  intro st err
  refine ⟨?_, ?_, ?_, ?_, ?_, ?_, ?_, ?_, ?_⟩
  · intro n e p h
    revert h
    unfold crear_autor
    cases hc : crear_autor_core st n e p with
    | ok v => obtain ⟨a, s⟩ := v; intro h; simp at h
    | error e' => intro _; rfl
  · intro i d h
    revert h
    unfold actualizar_autor
    cases hc : actualizar_autor_core st i d with
    | ok v => obtain ⟨a, s⟩ := v; intro h; simp at h
    | error e' => intro _; rfl
  · intro i h
    revert h
    unfold eliminar_autor
    simp only []
    split <;> (intro h; simp at h)
  · intro a t c tg va f now h
    revert h
    unfold crear_post
    cases hc : crear_post_core st a t c tg va f now with
    | ok v => obtain ⟨p, s⟩ := v; intro h; simp at h
    | error e' => intro _; rfl
  · intro i a d h
    revert h
    unfold actualizar_post
    cases hc : actualizar_post_core st i a d with
    | ok v => obtain ⟨p, s⟩ := v; intro h; simp at h
    | error e' => intro _; rfl
  · intro i a h
    revert h
    unfold eliminar_post
    cases hc : eliminar_post_core st i a with
    | ok v => obtain ⟨b, s⟩ := v; intro h; simp at h
    | error e' => intro _; rfl
  · intro i au c ia now h
    revert h
    unfold agregar_comentario_a_post
    cases hc : agregar_comentario_core st i au c ia now with
    | ok v => obtain ⟨x, s⟩ := v; intro h; simp at h
    | error e' => intro _; rfl
  · intro i ic ia h
    revert h
    unfold eliminar_comentario_de_post
    cases hc : eliminar_comentario_core st i ic ia with
    | ok v => obtain ⟨b, s⟩ := v; intro h; simp at h
    | error e' => intro _; rfl
  · intro i ic d ia h
    revert h
    unfold actualizar_comentario_de_post
    cases hc : actualizar_comentario_core st i ic d ia with
    | ok v => obtain ⟨x, s⟩ := v; intro h; simp at h
    | error e' => intro _; rfl

/-- Witness for C10: a failing `crear_autor` (empty name) leaves the
collection unchanged. -/
theorem C10_atomicidad_errores_witness :
    (crear_autor [] "" "a@b.co" "").2 = [] :=
  (C10_atomicidad_errores [] .validacion).1 "" "a@b.co" "" (by decide)

/-! ## C3: delete-post semantics -/

/-- C3: deleting a post that exists but whose `id_autor` differs (as a
string) from the acting author raises `AccesoNoAutorizado` (not a silent
`False`); deleting a post that does not exist returns `False`; and for the
owning author the delete returns `True` once and `False` on a retry of the
same id. -/
theorem C3_eliminar_post (posts : List Rec) (pid acting : String) :
    ((∀ p ∈ posts, recGet p "id_post" ≠ Val.f (.s pid)) →
      eliminar_post posts pid acting = (.ok false, posts)) ∧
    (∀ post a, posts.find? (fun p => recGet p "id_post" == Val.f (.s pid)) = some post →
      recGet post "id_autor" = Val.f (.s a) → a ≠ acting →
      eliminar_post posts pid acting = (.error .accesoNoAutorizado, posts)) ∧
    (∀ post, posts.find? (fun p => recGet p "id_post" == Val.f (.s pid)) = some post →
      recGet post "id_autor" = Val.f (.s acting) →
      ∃ posts', eliminar_post posts pid acting = (.ok true, posts') ∧
        eliminar_post posts' pid acting = (.ok false, posts')) := by
  refine ⟨?_, ?_, ?_⟩
  · intro hall
    have hf : posts.find? (fun p => recGet p "id_post" == Val.f (.s pid)) = Option.none :=
      list_find_eq_none_of_all _ _ (by intro x hx; simpa using hall x hx)
    simp [eliminar_post, eliminar_post_core, hf, pure, Except.pure]
  · intro post a hfind hown hne
    simp [eliminar_post, eliminar_post_core, hfind, hown, hne, bind, Except.bind,
      pure, Except.pure, throw, throwThe, MonadExceptOf.throw]
  · intro post hfind hown
    refine ⟨posts.filter (fun p => recGet p "id_post" ≠ Val.f (.s pid)), ?_, ?_⟩
    · simp [eliminar_post, eliminar_post_core, hfind, hown, bind, Except.bind,
        pure, Except.pure]
    · have hf : (posts.filter (fun p => recGet p "id_post" ≠ Val.f (.s pid))).find?
          (fun p => recGet p "id_post" == Val.f (.s pid)) = Option.none := by
        apply list_find_eq_none_of_all
        intro x hx
        have hx2 := (List.mem_filter.mp hx).2
        simpa using hx2
      simp [eliminar_post, eliminar_post_core, hf, pure, Except.pure, list_find_false]

/-- Witness for C3 at a concrete collection. -/
theorem C3_eliminar_post_witness :
    eliminar_post [] "1" "7" = (.ok false, []) ∧
    eliminar_post [[("id_post", Val.f (.s "1")), ("id_autor", Val.f (.s "7"))]] "1" "9" =
      (.error .accesoNoAutorizado, [[("id_post", Val.f (.s "1")), ("id_autor", Val.f (.s "7"))]]) ∧
    ∃ posts', eliminar_post [[("id_post", Val.f (.s "1")), ("id_autor", Val.f (.s "7"))]] "1" "7" =
        (.ok true, posts') ∧ eliminar_post posts' "1" "7" = (.ok false, posts') :=
  ⟨(C3_eliminar_post [] "1" "7").1 (by decide),
   (C3_eliminar_post [[("id_post", Val.f (.s "1")), ("id_autor", Val.f (.s "7"))]] "1" "9").2.1
     [("id_post", Val.f (.s "1")), ("id_autor", Val.f (.s "7"))] "7" (by decide) (by decide)
     (by decide),
   (C3_eliminar_post [[("id_post", Val.f (.s "1")), ("id_autor", Val.f (.s "7"))]] "1" "7").2.2
     [("id_post", Val.f (.s "1")), ("id_autor", Val.f (.s "7"))] (by decide) (by decide)⟩

/-! ## C1: save/load round trip -/

/-- C1, counterexample: the round trip does not return the known fields merely string-coerced:
the `.strip()` in `cargar_datos` also trims them, so a value with
surrounding whitespace comes back trimmed. -/
theorem C1_round_trip_counterexample :
    (cargar_datos "autores.csv"
        (guardar_datos "autores.csv" .ausente [[("nombre_autor", Val.f (.s " Ana "))]])).1 ≠
      [[("nombre_autor", Val.f (.s " Ana "))]].map canonCsvReclamada := by decide

/-- C1 (amended): saving then loading returns the records up to
canonicalization; for CSV storage each known field is string-coerced and
additionally trimmed (missing fields become the empty string, unknown
fields are dropped), and for JSON storage the structure is returned exactly
as saved. -/
theorem C1_round_trip (filepath : String) (x : List Rec) (a0 : Archivo) :
    (esCsv filepath = true →
      cargar_datos filepath (guardar_datos filepath a0 x) =
        (x.map canonCsvReal, guardar_datos filepath a0 x)) ∧
    (esJson filepath = true →
      cargar_datos filepath (guardar_datos filepath a0 x) =
        (x, guardar_datos filepath a0 x)) := by
  constructor
  · intro hcsv
    have hrow : ∀ item : Rec,
        filaARec (camposCsvPara filepath) ((camposCsvPara filepath).map (celdaCsv item)) =
          canonCsvReal item := fun _ => rfl
    simp only [guardar_datos, cargar_datos, inicializar_archivo, hcsv, if_true]
    have hfil : (x.map (fun item => (camposCsvPara filepath).map (celdaCsv item))).filter
          (fun r => !r.isEmpty) =
        x.map (fun item => (camposCsvPara filepath).map (celdaCsv item)) := by
      apply List.filter_eq_self.mpr
      intro r hr
      obtain ⟨item, _, rfl⟩ := List.mem_map.mp hr
      simp [camposCsvPara, CAMPOS_AUTORES]
    rw [hfil, List.map_map]
    refine Prod.ext ?_ rfl
    exact List.map_congr_left (fun item _ => hrow item)
  · intro hj
    have hncsv := terminaEn_json_no_csv _ hj
    have hj' : terminaEn (pyLower filepath) ".json" = true := hj
    simp [guardar_datos, cargar_datos, inicializar_archivo, hj', hncsv, esCsv, esJson]

/-- Witness for C1 at concrete paths and records. -/
theorem C1_round_trip_witness :
    cargar_datos "autores.csv"
      (guardar_datos "autores.csv" .ausente [[("nombre_autor", Val.f (.s " Ana "))]]) =
      ([[("nombre_autor", Val.f (.s " Ana "))]].map canonCsvReal,
        guardar_datos "autores.csv" .ausente [[("nombre_autor", Val.f (.s " Ana "))]]) ∧
    cargar_datos "posts.json"
      (guardar_datos "posts.json" .ausente [[("id_post", Val.f (.s "1"))]]) =
      ([[("id_post", Val.f (.s "1"))]],
        guardar_datos "posts.json" .ausente [[("id_post", Val.f (.s "1"))]]) :=
  ⟨(C1_round_trip "autores.csv" [[("nombre_autor", Val.f (.s " Ana "))]] .ausente).1
      (by decide),
   (C1_round_trip "posts.json" [[("id_post", Val.f (.s "1"))]] .ausente).2 (by decide)⟩

/-! ## C2: identifier generation -/

theorem int_foldl_max_le {ns : List Int} {n : Int} : ∀ m ∈ n :: ns, m ≤ ns.foldl max n := by
  induction ns generalizing n with
  | nil => simp
  | cons a t ih =>
      intro m hm
      simp only [List.foldl_cons]
      rcases List.mem_cons.mp hm with h | h
      · subst h; exact le_trans (le_max_left _ a) (ih _ (List.mem_cons_self _ _))
      · rcases List.mem_cons.mp h with h2 | h2
        · subst h2; exact le_trans (le_max_right n _) (ih _ (List.mem_cons_self _ _))
        · exact ih m (List.mem_cons_of_mem _ h2)

theorem int_foldl_max_mem {ns : List Int} {n : Int} : ns.foldl max n ∈ n :: ns := by
  induction ns generalizing n with
  | nil => simp
  | cons a t ih =>
      simp only [List.foldl_cons]
      rcases List.mem_cons.mp (ih (n := max n a)) with h | h
      · rcases max_choice n a with hm | hm <;> rw [h, hm] <;> simp
      · exact List.mem_cons_of_mem _ (List.mem_cons_of_mem _ h)

theorem leerIds_length (clave : String) (items : List Rec) (ns : List Int)
    (h : leerIds clave items = .ok ns) : ns.length = items.length := by
  induction items generalizing ns with
  | nil =>
      unfold leerIds at h
      cases h
      rfl
  | cons it t ih =>
      unfold leerIds at h
      cases hp : pyIntVal (recGetD it clave (Val.f (.vint 0))) with
      | ok n =>
          rw [hp] at h
          cases hr : leerIds clave t with
          | ok ms => rw [hr] at h; cases h; simp [ih ms hr]
          | error e => rw [hr] at h; cases h
      | valueErr => rw [hp] at h; cases h
      | typeErr => rw [hp] at h; cases h

/-- C2, counterexample: the claim's "an identifier is never reused after a deletion" fails on the
code: create two authors (ids "1", "2"), delete author "2", and the next
create assigns id "2" again, because `_generar_id` only looks at the maximum
of the surviving ids. -/
theorem C2_generacion_ids_counterexample :
    (∃ a ∈ (crear_autor (crear_autor [] "Ana" "a@b.co" "").2 "Bea" "b@b.co" "").2,
      recGet a "id_autor" = Val.f (.s "2")) ∧
    (eliminar_autor (crear_autor (crear_autor [] "Ana" "a@b.co" "").2 "Bea" "b@b.co" "").2
        "2").1 = .ok true ∧
    (∀ a ∈ (eliminar_autor
        (crear_autor (crear_autor [] "Ana" "a@b.co" "").2 "Bea" "b@b.co" "").2 "2").2,
      recGet a "id_autor" ≠ Val.f (.s "2")) ∧
    (crear_autor (eliminar_autor
        (crear_autor (crear_autor [] "Ana" "a@b.co" "").2 "Bea" "b@b.co" "").2 "2").2
        "Cid" "c@b.co" "").1 =
      .ok [("id_autor", Val.f (.s "2")), ("nombre_autor", Val.f (.s "Cid")),
           ("email", Val.f (.s "c@b.co")), ("password_hash", Val.f (.s ""))] := by
  decide

/-- C2 (amended): a newly assigned identifier is `max(existing ids) + 1`
(1 on an empty collection), both for `_generar_id` and for the per-post
`_generar_id_comentario`; the new identifier is therefore strictly greater
than every id present at creation time, so an id can only be reused after
every record with an id at least as large has been deleted (deleting the
maximal record does allow reuse, as the counterexample shows). -/
theorem C2_generacion_ids (items : List Rec) (clave : String) :
    (items = [] → generar_id items clave = .ok 1) ∧
    (∀ n ns, leerIds clave items = .ok (n :: ns) →
      generar_id items clave = .ok (ns.foldl max n + 1) ∧
      ns.foldl max n ∈ n :: ns ∧
      (∀ m ∈ n :: ns, m < ns.foldl max n + 1)) ∧
    (∀ post cs n ns, getComentarios post = .ok cs →
      leerIdsF "id_comentario" cs = .ok (n :: ns) →
      generar_id_comentario post = .ok (ns.foldl max n + 1)) := by
  refine ⟨?_, ?_, ?_⟩
  · intro h; subst h; rfl
  · intro n ns h
    have hlen := leerIds_length clave items (n :: ns) h
    have hne : items.isEmpty = false := by
      cases items with
      | nil => simp at hlen
      | cons a t => rfl
    refine ⟨?_, int_foldl_max_mem, ?_⟩
    · unfold generar_id
      rw [hne, h]
      simp
    · intro m hm
      exact lt_of_le_of_lt (int_foldl_max_le m hm) (by omega)
  · intro post cs n ns hcs hids
    have hne : cs.isEmpty = false := by
      cases cs with
      | nil => simp [leerIdsF] at hids
      | cons a t => rfl
    unfold generar_id_comentario
    rw [hcs]
    simp [bind, Except.bind, pure, Except.pure, hne, hids]

/-- Witness for C2 at a concrete collection and post. -/
theorem C2_generacion_ids_witness :
    generar_id [] "id_autor" = .ok 1 ∧
    generar_id [[("id_autor", Val.f (.s "3"))], [("id_autor", Val.f (.s "1"))]]
      "id_autor" = .ok (([(1 : Int)].foldl max 3) + 1) ∧
    generar_id_comentario [("comentarios", Val.rlist [[("id_comentario", FVal.s "5")]])] =
      .ok (([] : List Int).foldl max 5 + 1) :=
  ⟨(C2_generacion_ids [] "id_autor").1 rfl,
   ((C2_generacion_ids [[("id_autor", Val.f (.s "3"))], [("id_autor", Val.f (.s "1"))]]
      "id_autor").2.1 3 [1] (by decide)).1,
   (C2_generacion_ids [] "id_autor").2.2
     [("comentarios", Val.rlist [[("id_comentario", FVal.s "5")]])]
     [[("id_comentario", FVal.s "5")]] 5 [] (by decide) (by decide)⟩

/-! ## C5: asymmetric not-found signals for comments -/

theorem list_findIdx_eq_none_of_all {α : Type} (p : α → Bool) (l : List α)
    (h : ∀ x ∈ l, p x = false) : l.findIdx? p = Option.none := by
  rw [List.findIdx?_eq_none_iff]
  exact h

theorem find_getD_of_findIdx {α : Type} (p : α → Bool) (d : α) :
    ∀ (l : List α) (i : Nat), l.findIdx? p = some i →
      i < l.length ∧ l.find? p = some (l.getD i d) ∧ p (l.getD i d) = true := by
  intro l
  induction l with
  | nil => intro i h; simp at h
  | cons a t ih =>
      intro i h
      rw [List.findIdx?_cons] at h
      by_cases hp : p a
      · rw [if_pos hp] at h
        cases h
        refine ⟨Nat.succ_pos _, ?_, by simpa using hp⟩
        rw [List.find?_cons_of_pos _ hp]
        rfl
      · rw [if_neg hp] at h
        rw [List.findIdx?_succ] at h
        cases hr : t.findIdx? p with
        | none => rw [hr] at h; simp at h
        | some j =>
            rw [hr] at h
            simp at h
            subst h
            obtain ⟨hlt, hfind, hpj⟩ := ih j hr
            refine ⟨by simpa using hlt, ?_, ?_⟩
            · rw [List.find?_cons_of_neg _ hp]
              simpa using hfind
            · simpa using hpj

/-- C5: within an existing post, a missing comment id makes
`eliminar_comentario_de_post` return `False` but makes
`actualizar_comentario_de_post` raise `ValidacionError`; when the post
itself is absent both raise `PostNoEncontrado`. -/
theorem C5_senales_no_encontrado (posts : List Rec) (pid cid : String)
    (ses : Option String) (datos : FRec) :
    (∀ pidx cs, idxPorCampo "id_post" pid posts = some pidx →
      getComentarios (posts.getD pidx []) = .ok cs →
      (∀ c ∈ cs, frecGet c "id_comentario" ≠ FVal.s cid) →
      eliminar_comentario_de_post posts pid cid ses = (.ok false, posts) ∧
      actualizar_comentario_de_post posts pid cid datos ses = (.error .validacion, posts)) ∧
    (idxPorCampo "id_post" pid posts = Option.none →
      eliminar_comentario_de_post posts pid cid ses = (.error .postNoEncontrado, posts) ∧
      actualizar_comentario_de_post posts pid cid datos ses =
        (.error .postNoEncontrado, posts)) := by
  constructor
  · intro pidx cs hidx hcs hnone
    simp only [List.getD_eq_getElem?_getD] at hcs
    have hf : cs.find? (fun c => frecGet c "id_comentario" == FVal.s cid) = Option.none :=
      list_find_eq_none_of_all _ _ (by intro x hx; simpa using hnone x hx)
    have hfi : cs.findIdx? (fun c => frecGet c "id_comentario" == FVal.s cid) =
        Option.none :=
      list_findIdx_eq_none_of_all _ _ (by intro x hx; simpa using hnone x hx)
    constructor
    · simp [eliminar_comentario_de_post, eliminar_comentario_core, hidx, hcs, hf,
        bind, Except.bind, pure, Except.pure]
    · simp [actualizar_comentario_de_post, actualizar_comentario_core, hidx, hcs, hfi,
        bind, Except.bind, pure, Except.pure, throw, throwThe, MonadExceptOf.throw]
  · intro hidx
    constructor
    · simp [eliminar_comentario_de_post, eliminar_comentario_core, hidx,
        bind, Except.bind, pure, Except.pure, throw, throwThe, MonadExceptOf.throw]
    · simp [actualizar_comentario_de_post, actualizar_comentario_core, hidx,
        bind, Except.bind, pure, Except.pure, throw, throwThe, MonadExceptOf.throw]

/-- Witness for C5 at a concrete post. -/
theorem C5_senales_no_encontrado_witness :
    eliminar_comentario_de_post [[("id_post", Val.f (.s "1")), ("comentarios", Val.rlist [])]]
      "1" "9" Option.none = (.ok false, [[("id_post", Val.f (.s "1")), ("comentarios", Val.rlist [])]]) ∧
    actualizar_comentario_de_post [[("id_post", Val.f (.s "1")), ("comentarios", Val.rlist [])]]
      "1" "9" [] Option.none =
      (.error .validacion, [[("id_post", Val.f (.s "1")), ("comentarios", Val.rlist [])]]) ∧
    eliminar_comentario_de_post [] "1" "9" Option.none = (.error .postNoEncontrado, []) :=
  ⟨((C5_senales_no_encontrado [[("id_post", Val.f (.s "1")), ("comentarios", Val.rlist [])]]
      "1" "9" Option.none []).1 0 [] (by decide) (by decide) (by decide)).1,
   ((C5_senales_no_encontrado [[("id_post", Val.f (.s "1")), ("comentarios", Val.rlist [])]]
      "1" "9" Option.none []).1 0 [] (by decide) (by decide) (by decide)).2,
   ((C5_senales_no_encontrado [] "1" "9" Option.none []).2 (by decide)).1⟩

/-! ## C4: one authorization rule for both comment mutations -/

/-- C4: `eliminar_comentario_de_post` and `actualizar_comentario_de_post`
apply the same authorization rule to an existing comment of an existing
post: with a non-empty stored `id_autor` and a supplied acting id they fail
with `AccesoNoAutorizado` unless the two strings are equal; with an empty
stored `id_autor`, or no acting id, or matching ids, the mutation is
allowed (the update still validating its body). -/
theorem C4_autorizacion_comentarios (posts : List Rec) (pid cid : String)
    (datos : FRec) (pidx : Nat) (cs : List FRec) (cidx : Nat) (c : FRec)
    (hidx : idxPorCampo "id_post" pid posts = some pidx)
    (hcs : getComentarios (posts.getD pidx []) = .ok cs)
    (hfind : cs.findIdx? (fun k => frecGet k "id_comentario" == FVal.s cid) = some cidx)
    (hc : cs.getD cidx [] = c) :
    (∀ a s, frecGet c "id_autor" = FVal.s a → a ≠ "" → a ≠ s →
      eliminar_comentario_de_post posts pid cid (some s) =
        (.error .accesoNoAutorizado, posts) ∧
      actualizar_comentario_de_post posts pid cid datos (some s) =
        (.error .accesoNoAutorizado, posts)) ∧
    (∀ ses, frecGet c "id_autor" = FVal.s "" →
      (eliminar_comentario_de_post posts pid cid ses).1 = .ok true ∧
      (∀ b, frecGetD datos "contenido" FVal.none = FVal.s b →
        frecHasKey datos "contenido" = true → esStrNoVacio b = true →
        (actualizar_comentario_de_post posts pid cid datos ses).1 =
          .ok (frecSet c "contenido" (FVal.s (pyStrip b))))) ∧
    ((eliminar_comentario_de_post posts pid cid Option.none).1 = .ok true ∧
      (∀ b, frecGetD datos "contenido" FVal.none = FVal.s b →
        frecHasKey datos "contenido" = true → esStrNoVacio b = true →
        (actualizar_comentario_de_post posts pid cid datos Option.none).1 =
          .ok (frecSet c "contenido" (FVal.s (pyStrip b))))) ∧
    (∀ a, frecGet c "id_autor" = FVal.s a →
      (eliminar_comentario_de_post posts pid cid (some a)).1 = .ok true ∧
      (∀ b, frecGetD datos "contenido" FVal.none = FVal.s b →
        frecHasKey datos "contenido" = true → esStrNoVacio b = true →
        (actualizar_comentario_de_post posts pid cid datos (some a)).1 =
          .ok (frecSet c "contenido" (FVal.s (pyStrip b))))) := by
  simp only [List.getD_eq_getElem?_getD] at hcs hc
  have hfd := find_getD_of_findIdx
    (fun k => frecGet k "id_comentario" == FVal.s cid) [] cs cidx hfind
  simp only [List.getD_eq_getElem?_getD] at hfd
  have hf : cs.find? (fun k => frecGet k "id_comentario" == FVal.s cid) = some c := by
    rw [hfd.2.1, hc]
  refine ⟨?_, ?_, ?_, ?_⟩
  · intro a s ha hane hne
    constructor
    · simp [eliminar_comentario_de_post, eliminar_comentario_core, hidx, hcs, hf,
        ha, fvalTruthy, fvalStr, hane, hne,
        bind, Except.bind, pure, Except.pure, throw, throwThe, MonadExceptOf.throw]
    · simp [actualizar_comentario_de_post, actualizar_comentario_core, hidx, hcs,
        hfind, hc, ha, fvalTruthy, fvalStr, hane, hne,
        bind, Except.bind, pure, Except.pure, throw, throwThe, MonadExceptOf.throw]
  · intro ses ha
    constructor
    · simp [eliminar_comentario_de_post, eliminar_comentario_core, hidx, hcs, hf,
        ha, fvalTruthy,
        bind, Except.bind, pure, Except.pure, throw, throwThe, MonadExceptOf.throw]
    · intro b hb hkey hbv
      simp [actualizar_comentario_de_post, actualizar_comentario_core, hidx, hcs,
        hfind, hc, ha, fvalTruthy, fvalStr, hkey, hb, hbv,
        bind, Except.bind, pure, Except.pure, throw, throwThe, MonadExceptOf.throw]
  · constructor
    · simp [eliminar_comentario_de_post, eliminar_comentario_core, hidx, hcs, hf,
        bind, Except.bind, pure, Except.pure, throw, throwThe, MonadExceptOf.throw]
    · intro b hb hkey hbv
      simp [actualizar_comentario_de_post, actualizar_comentario_core, hidx, hcs,
        hfind, hc, fvalStr, hkey, hb, hbv,
        bind, Except.bind, pure, Except.pure, throw, throwThe, MonadExceptOf.throw]
  · intro a ha
    constructor
    · simp [eliminar_comentario_de_post, eliminar_comentario_core, hidx, hcs, hf,
        ha, fvalTruthy, fvalStr,
        bind, Except.bind, pure, Except.pure, throw, throwThe, MonadExceptOf.throw]
    · intro b hb hkey hbv
      simp [actualizar_comentario_de_post, actualizar_comentario_core, hidx, hcs,
        hfind, hc, ha, fvalTruthy, fvalStr, hkey, hb, hbv,
        bind, Except.bind, pure, Except.pure, throw, throwThe, MonadExceptOf.throw]

/-- Witness for C4 at a concrete post/comment. -/
theorem C4_autorizacion_comentarios_witness :
    (eliminar_comentario_de_post
        [[("id_post", Val.f (.s "1")),
          ("comentarios", Val.rlist [[("id_comentario", FVal.s "1"), ("id_autor", FVal.s "7")]])]]
        "1" "1" (some "9")).1 = .error .accesoNoAutorizado ∧
    (actualizar_comentario_de_post
        [[("id_post", Val.f (.s "1")),
          ("comentarios", Val.rlist [[("id_comentario", FVal.s "1"), ("id_autor", FVal.s "")]])]]
        "1" "1" [("contenido", FVal.s "hola")] (some "9")).1 =
      .ok (frecSet [("id_comentario", FVal.s "1"), ("id_autor", FVal.s "")]
        "contenido" (FVal.s (pyStrip "hola"))) := by
  constructor
  · exact congrArg Prod.fst ((C4_autorizacion_comentarios
      [[("id_post", Val.f (.s "1")),
        ("comentarios", Val.rlist [[("id_comentario", FVal.s "1"), ("id_autor", FVal.s "7")]])]]
      "1" "1" [("contenido", FVal.s "hola")] 0
      [[("id_comentario", FVal.s "1"), ("id_autor", FVal.s "7")]] 0
      [("id_comentario", FVal.s "1"), ("id_autor", FVal.s "7")]
      (by decide) (by decide) (by decide) (by decide)).1 "7" "9"
      (by decide) (by decide) (by decide)).1
  · exact ((C4_autorizacion_comentarios
      [[("id_post", Val.f (.s "1")),
        ("comentarios", Val.rlist [[("id_comentario", FVal.s "1"), ("id_autor", FVal.s "")]])]]
      "1" "1" [("contenido", FVal.s "hola")] 0
      [[("id_comentario", FVal.s "1"), ("id_autor", FVal.s "")]] 0
      [("id_comentario", FVal.s "1"), ("id_autor", FVal.s "")]
      (by decide) (by decide) (by decide) (by decide)).2.1 (some "9")
      (by decide)).2 "hola" (by decide) (by decide) (by decide)

/-! ## C9: tag normalization -/

theorem normalizar_tags_aux_spec (ts : List String) :
    ∀ vistos, (∀ x ∈ normalizar_tags_aux ts vistos, ¬ x ∈ vistos ∧ x ≠ "") ∧
      (normalizar_tags_aux ts vistos).Nodup := by
  induction ts with
  | nil => intro vistos; simp [normalizar_tags_aux]
  | cons t ts ih =>
      intro vistos
      simp only [normalizar_tags_aux]
      split
      · next hc =>
          obtain ⟨hmem, hnd⟩ := ih (pyLower (pyStrip t) :: vistos)
          constructor
          · intro x hx
            rcases List.mem_cons.mp hx with hx1 | hx2
            · subst hx1; exact ⟨hc.2, hc.1⟩
            · have h2 := hmem x hx2
              exact ⟨fun hv => h2.1 (List.mem_cons_of_mem _ hv), h2.2⟩
          · refine List.nodup_cons.mpr ⟨?_, hnd⟩
            intro hmem2
            exact (hmem _ hmem2).1 (List.mem_cons_self _ _)
      · next hc => exact ih vistos

/-- C9: tag normalization lower-cases, trims, drops empties, de-duplicates
and preserves first-occurrence order, for both accepted input shapes: the
two concrete examples of the specification hold, and no normalized (or
parsed) tag list contains an empty string or a duplicate. -/
theorem C9_tags (now : String) :
    normalizar_tags ["Python", " python ", "Dev"] = ["python", "dev"] ∧
    (∃ post, (crear_post [] "7" "Titulo" "Contenido"
        (.f (.s "Python, Desarrollo , python")) Option.none Option.none now).1 = .ok post ∧
      recGet post "tags" = Val.f (.slist ["python", "desarrollo"])) ∧
    (∀ ts, ¬ "" ∈ normalizar_tags ts ∧ (normalizar_tags ts).Nodup) ∧
    (∀ v out, parsear_tags v = .ok out → ¬ "" ∈ out ∧ out.Nodup) := by
  have hgen : ∀ ts : List String, ¬ "" ∈ normalizar_tags ts ∧ (normalizar_tags ts).Nodup := by
    intro ts
    obtain ⟨hmem, hnd⟩ := normalizar_tags_aux_spec ts []
    exact ⟨fun h => (hmem _ h).2 rfl, hnd⟩
  refine ⟨by decide, ?_, hgen, ?_⟩
  · refine ⟨[("id_post", .f (.s "1")), ("id_autor", .f (.s "7")),
      ("titulo", .f (.s "Titulo")), ("contenido", .f (.s "Contenido")),
      ("fecha_publicacion", .f (.s now)),
      ("tags", .f (.slist ["python", "desarrollo"])), ("comentarios", .rlist [])],
      rfl, rfl⟩
  · intro v out h
    cases v with
    | f fv =>
        cases fv with
        | s x =>
            simp only [parsear_tags] at h
            cases h
            exact hgen _
        | vint n => simp [parsear_tags] at h
        | none =>
            simp only [parsear_tags] at h
            cases h
            simp
        | slist xs =>
            simp only [parsear_tags] at h
            cases h
            exact hgen _
    | rlist rs => simp [parsear_tags] at h

/-- Witness for C9: the universally quantified parts at concrete inputs. -/
theorem C9_tags_witness :
    ¬ "" ∈ normalizar_tags ["Python", "", " dev "] ∧
    ∀ out, parsear_tags (Val.f FVal.none) = .ok out → ¬ "" ∈ out :=
  ⟨((C9_tags "t").2.2.1 ["Python", "", " dev "]).1,
   fun out h => ((C9_tags "t").2.2.2 (Val.f FVal.none) out h).1⟩

/-! ## Character-level lemmas: the email character classes are invariant
under ASCII lowering, which drives case-insensitivity of the email logic -/

theorem char_toNat_ofNat_valido {n : Nat} (h : n < 55296) : (Char.ofNat n).toNat = n := by
  unfold Char.ofNat
  rw [dif_pos (Or.inl h)]
  rfl

theorem char_eq_of_toNat {c d : Char} (h : c.toNat = d.toNat) : c = d :=
  Char.ext (UInt32.toNat.inj h)

theorem toLower_toNat (c : Char) : (Char.toLower c).toNat =
    if 65 ≤ c.toNat ∧ c.toNat ≤ 90 then c.toNat + 32 else c.toNat := by
  unfold Char.toLower
  simp only [ge_iff_le]
  by_cases h : 65 ≤ c.toNat ∧ c.toNat ≤ 90
  · rw [if_pos h, if_pos h]
    exact char_toNat_ofNat_valido (by omega)
  · rw [if_neg h, if_neg h]

theorem toLower_toLower (c : Char) : Char.toLower (Char.toLower c) = Char.toLower c := by
  apply char_eq_of_toNat
  have h1 := toLower_toNat c
  have h2 := toLower_toNat (Char.toLower c)
  rw [h1] at h2
  rw [h2, h1]
  split_ifs <;> omega

theorem esEspacio_toLower (c : Char) : esEspacio (Char.toLower c) = esEspacio c := by
  have hb := toLower_toNat c
  unfold esEspacio
  rw [hb]
  split_ifs with h
  · exact decide_eq_decide.mpr (by omega)
  · rfl

theorem inClase1_toLower (c : Char) : inClase1 (Char.toLower c) = inClase1 c := by
  have hb := toLower_toNat c
  unfold inClase1
  rw [hb]
  split_ifs with h
  · exact decide_eq_decide.mpr (by omega)
  · rfl

theorem inClaseDom_toLower (c : Char) : inClaseDom (Char.toLower c) = inClaseDom c := by
  have hb := toLower_toNat c
  unfold inClaseDom
  rw [hb]
  split_ifs with h
  · exact decide_eq_decide.mpr (by omega)
  · rfl

theorem esAlfa_toLower (c : Char) : esAlfa (Char.toLower c) = esAlfa c := by
  have hb := toLower_toNat c
  unfold esAlfa
  rw [hb]
  split_ifs with h
  · exact decide_eq_decide.mpr (by omega)
  · rfl

theorem esArroba_toLower (c : Char) : esArroba (Char.toLower c) = esArroba c := by
  have hb := toLower_toNat c
  unfold esArroba
  rw [hb]
  split_ifs with h
  · exact decide_eq_decide.mpr (by omega)
  · rfl

theorem esPunto_toLower (c : Char) : esPunto (Char.toLower c) = esPunto c := by
  have hb := toLower_toNat c
  unfold esPunto
  rw [hb]
  split_ifs with h
  · exact decide_eq_decide.mpr (by omega)
  · rfl

theorem esSaltoLinea_toLower (c : Char) : esSaltoLinea (Char.toLower c) = esSaltoLinea c := by
  have hb := toLower_toNat c
  unfold esSaltoLinea
  rw [hb]
  split_ifs with h
  · exact decide_eq_decide.mpr (by omega)
  · rfl

theorem esEspacio_comp : esEspacio ∘ Char.toLower = esEspacio := funext esEspacio_toLower
theorem inClase1_comp : inClase1 ∘ Char.toLower = inClase1 := funext inClase1_toLower
theorem inClaseDom_comp : inClaseDom ∘ Char.toLower = inClaseDom := funext inClaseDom_toLower
theorem esAlfa_comp : esAlfa ∘ Char.toLower = esAlfa := funext esAlfa_toLower
theorem toLower_comp : Char.toLower ∘ Char.toLower = Char.toLower := funext toLower_toLower

/-! ## String-level lemmas about `strip` and `lower` -/

theorem stripChars_map_toLower (cs : List Char) :
    stripChars (cs.map Char.toLower) = (stripChars cs).map Char.toLower := by
  unfold stripChars
  rw [List.dropWhile_map, esEspacio_comp, ← List.map_reverse, List.dropWhile_map,
    esEspacio_comp, ← List.map_reverse]

theorem dropWhile_eq_self_of_head {α : Type} (p : α → Bool) (l : List α)
    (h : ∀ a, l.head? = some a → p a = false) : l.dropWhile p = l := by
  cases l with
  | nil => rfl
  | cons a t => exact List.dropWhile_cons_of_neg (by simp [h a rfl])

theorem stripChars_idem (cs : List Char) : stripChars (stripChars cs) = stripChars cs := by
  show List.rdropWhile esEspacio
      ((List.rdropWhile esEspacio (cs.dropWhile esEspacio)).dropWhile esEspacio) = _
  have hkey : (List.rdropWhile esEspacio (cs.dropWhile esEspacio)).dropWhile esEspacio =
      List.rdropWhile esEspacio (cs.dropWhile esEspacio) := by
    apply dropWhile_eq_self_of_head
    intro a ha
    obtain ⟨t2, ht⟩ := List.rdropWhile_prefix esEspacio (cs.dropWhile esEspacio)
    have hX : (cs.dropWhile esEspacio).head? = some a := by
      rw [← ht, List.head?_append, ha]
      rfl
    have hh := List.head?_dropWhile_not esEspacio cs
    rw [hX] at hh
    simpa using hh
  rw [hkey, List.rdropWhile_idempotent]
  rfl

theorem pyLower_data (s : String) : (pyLower s).data = s.data.map Char.toLower := rfl

theorem pyStrip_data (s : String) : (pyStrip s).data = stripChars s.data := rfl

theorem pyLower_pyLower (s : String) : pyLower (pyLower s) = pyLower s := by
  unfold pyLower
  apply congrArg String.mk
  rw [show (String.mk (s.data.map Char.toLower)).data = s.data.map Char.toLower from rfl]
  rw [List.map_map, toLower_comp]

theorem pyStrip_pyLower (s : String) : pyStrip (pyLower s) = pyLower (pyStrip s) := by
  unfold pyStrip pyLower
  apply congrArg String.mk
  exact stripChars_map_toLower s.data

theorem pyStrip_pyStrip (s : String) : pyStrip (pyStrip s) = pyStrip s := by
  unfold pyStrip
  apply congrArg String.mk
  exact stripChars_idem s.data

theorem pyLowerStrip_idem (e : String) :
    pyLower (pyStrip (pyLower (pyStrip e))) = pyLower (pyStrip e) := by
  rw [pyStrip_pyLower, pyLower_pyLower, pyStrip_pyStrip]

/-! ## Case-insensitivity of the email validator -/

theorem isEmpty_map {α β : Type} (f : α → β) (l : List α) :
    (l.map f).isEmpty = l.isEmpty := by cases l <;> rfl

theorem emailDom_map (dom : List Char) :
    emailDom (dom.map Char.toLower) = emailDom dom := by
  unfold emailDom
  rw [← List.map_reverse, List.takeWhile_map, esAlfa_comp]
  simp only [List.length_map]
  rw [← List.map_drop]
  cases hr : dom.reverse.drop (dom.reverse.takeWhile esAlfa).length with
  | nil => rfl
  | cons c2 drev =>
      simp only [List.map_cons]
      rw [esPunto_toLower, List.all_map, inClaseDom_comp, isEmpty_map]

theorem emailCore_map (cs : List Char) :
    emailCore (cs.map Char.toLower) = emailCore cs := by
  unfold emailCore
  rw [List.takeWhile_map, inClase1_comp]
  simp only [List.length_map]
  rw [← List.map_drop]
  cases hr : cs.drop (cs.takeWhile inClase1).length with
  | nil => rfl
  | cons c dom =>
      simp only [List.map_cons]
      rw [esArroba_toLower, emailDom_map, isEmpty_map]

theorem emailMatch_congr {v e : String} (h : pyLower v = pyLower e) :
    emailMatch v = emailMatch e := by
  have hd : v.data.map Char.toLower = e.data.map Char.toLower := congrArg String.data h
  unfold emailMatch
  have hcore : emailCore v.data = emailCore e.data := by
    rw [← emailCore_map v.data, ← emailCore_map e.data, hd]
  have hlast : (v.data.getLast?).map Char.toLower = (e.data.getLast?).map Char.toLower := by
    rw [← List.getLast?_map, ← List.getLast?_map, hd]
  have hdrop : emailCore v.data.dropLast = emailCore e.data.dropLast := by
    rw [← emailCore_map v.data.dropLast, ← emailCore_map e.data.dropLast,
      List.map_dropLast, List.map_dropLast, hd]
  rw [hcore]
  cases hv : v.data.getLast? with
  | none =>
      cases he : e.data.getLast? with
      | none => rfl
      | some ce => rw [hv, he] at hlast; simp at hlast
  | some cv =>
      cases he : e.data.getLast? with
      | none => rw [hv, he] at hlast; simp at hlast
      | some ce =>
          rw [hv, he] at hlast
          simp only [Option.map_some'] at hlast
          have hl2 : Char.toLower cv = Char.toLower ce := by injection hlast
          have hnl : esSaltoLinea cv = esSaltoLinea ce := by
            rw [← esSaltoLinea_toLower cv, ← esSaltoLinea_toLower ce, hl2]
          show (emailCore e.data || (esSaltoLinea cv && emailCore v.data.dropLast)) =
            (emailCore e.data || (esSaltoLinea ce && emailCore e.data.dropLast))
          rw [hnl, hdrop]

theorem esStrNoVacio_congr {v e : String} (h : pyLower v = pyLower e) :
    esStrNoVacio v = esStrNoVacio e := by
  have hd : v.data.map Char.toLower = e.data.map Char.toLower := congrArg String.data h
  have hs : (stripChars v.data).map Char.toLower = (stripChars e.data).map Char.toLower := by
    rw [← stripChars_map_toLower, ← stripChars_map_toLower, hd]
  have hlen : (stripChars v.data).length = (stripChars e.data).length := by
    have h2 := congrArg List.length hs
    simpa using h2
  have mk_eq_empty_iff : ∀ l : List Char, (String.mk l = "") ↔ l = [] := by
    intro l
    constructor
    · intro h1
      exact congrArg String.data h1
    · intro h1
      rw [h1]
  unfold esStrNoVacio pyStrip
  apply decide_eq_decide.mpr
  rw [ne_eq, ne_eq, mk_eq_empty_iff, mk_eq_empty_iff,
    ← List.length_eq_zero, ← List.length_eq_zero, hlen]

theorem validarEmailB_congr {v e : String} (h : pyLower v = pyLower e) :
    validarEmailB v = validarEmailB e := by
  unfold validarEmailB
  rw [esStrNoVacio_congr h, emailMatch_congr h]

theorem pyStripLower_congr {v e : String} (h : pyLower v = pyLower e) :
    pyLower (pyStrip v) = pyLower (pyStrip e) := by
  rw [← pyStrip_pyLower, ← pyStrip_pyLower, h]

/-! ## Scans over the author collection -/

/-- A collection whose stored emails are all strings (as every collection
the program itself writes is); the email scans cannot crash on it. -/
def emailsBienFormados (autores : List Rec) : Prop :=
  ∀ r ∈ autores, ∃ x, recGetD r "email" (Val.f (.s "")) = Val.f (.s x)

theorem buscarEmailAux_some {L : String} {autores : List Rec}
    (hwf : emailsBienFormados autores)
    (hdup : ∃ r ∈ autores, ∃ x, recGetD r "email" (Val.f (.s "")) = Val.f (.s x) ∧
      pyLower (pyStrip x) = L) :
    ∃ a, buscarEmailAux L autores = .ok (some a) := by
  induction autores with
  | nil => obtain ⟨r, hr, _⟩ := hdup; exact absurd hr (List.not_mem_nil r)
  | cons a t ih =>
      obtain ⟨x0, hx0⟩ := hwf a (List.mem_cons_self a t)
      by_cases he : pyLower (pyStrip x0) = L
      · refine ⟨a, ?_⟩
        simp [buscarEmailAux, hx0, valStripLower, bind, Except.bind, he, pure, Except.pure]
      · have hdup' : ∃ r ∈ t, ∃ x, recGetD r "email" (Val.f (.s "")) = Val.f (.s x) ∧
            pyLower (pyStrip x) = L := by
          obtain ⟨r, hr, x, hx, hxL⟩ := hdup
          rcases List.mem_cons.mp hr with hra | hrt
          · subst hra
            rw [hx0] at hx
            cases hx
            exact absurd hxL he
          · exact ⟨r, hrt, x, hx, hxL⟩
        obtain ⟨b, hb⟩ := ih (fun r hr => hwf r (List.mem_cons_of_mem a hr)) hdup'
        refine ⟨b, ?_⟩
        simp [buscarEmailAux, hx0, valStripLower, bind, Except.bind, he, hb]

theorem buscarEmailAux_append_none {L : String} {l1 l2 : List Rec}
    (h : buscarEmailAux L l1 = .ok Option.none) :
    buscarEmailAux L (l1 ++ l2) = buscarEmailAux L l2 := by
  induction l1 with
  | nil => rfl
  | cons a t ih =>
      rw [List.cons_append]
      simp only [buscarEmailAux] at h ⊢
      cases hv : valStripLower (recGetD a "email" (Val.f (.s ""))) with
      | error er =>
          rw [hv] at h
          simp [bind, Except.bind] at h
      | ok x =>
          rw [hv] at h
          simp only [bind, Except.bind] at h ⊢
          by_cases hx : x = L
          · rw [if_pos hx] at h
            simp [pure, Except.pure] at h
          · rw [if_neg hx] at h ⊢
            exact ih h

theorem buscarEmailAux_none_of_all {L : String} {autores : List Rec}
    (hwf : emailsBienFormados autores)
    (hno : ∀ r ∈ autores, ∀ x, recGetD r "email" (Val.f (.s "")) = Val.f (.s x) →
      pyLower (pyStrip x) ≠ L) :
    buscarEmailAux L autores = .ok Option.none := by
  induction autores with
  | nil => rfl
  | cons a t ih =>
      obtain ⟨x0, hx0⟩ := hwf a (List.mem_cons_self a t)
      have hne := hno a (List.mem_cons_self a t) x0 hx0
      have ht := ih (fun r hr => hwf r (List.mem_cons_of_mem a hr))
        (fun r hr => hno r (List.mem_cons_of_mem a hr))
      simp [buscarEmailAux, hx0, valStripLower, bind, Except.bind, hne, ht]

/-- Successful `crear_autor` determines every intermediate step. -/
theorem crear_autor_ok_inv {autores : List Rec} {n e p : String} {a : Rec}
    {st' : List Rec} (h : crear_autor autores n e p = (.ok a, st')) :
    esStrNoVacio n = true ∧ validarEmailB e = true ∧
    buscarEmailAux (pyLower (pyStrip e)) autores = .ok Option.none ∧
    ∃ nid, generar_id autores "id_autor" = .ok nid ∧
      a = [("id_autor", .f (.s (toString nid))),
           ("nombre_autor", .f (.s (pyStrip n))),
           ("email", .f (.s (pyLower (pyStrip e)))),
           ("password_hash", .f (.s (pyStrip p)))] ∧
      st' = autores ++ [a] := by
  unfold crear_autor crear_autor_core at h
  cases hn : esStrNoVacio n with
  | false =>
      rw [hn] at h
      simp [bind, Except.bind, pure, Except.pure, throw, throwThe,
        MonadExceptOf.throw] at h
  | true =>
      rw [hn] at h
      cases hv : validarEmailB e with
      | false =>
          rw [hv] at h
          simp [bind, Except.bind, pure, Except.pure, throw, throwThe,
            MonadExceptOf.throw] at h
      | true =>
          rw [hv] at h
          cases hs : buscarEmailAux (pyLower (pyStrip e)) autores with
          | error er =>
              rw [hs] at h
              simp [bind, Except.bind, pure, Except.pure, throw, throwThe,
                MonadExceptOf.throw] at h
          | ok o =>
              rw [hs] at h
              cases o with
              | some b =>
                  simp [bind, Except.bind, throw, throwThe, MonadExceptOf.throw,
                    pure, Except.pure] at h
              | none =>
                  cases hg : generar_id autores "id_autor" with
                  | error er =>
                      rw [hg] at h
                      simp [bind, Except.bind, pure, Except.pure, throw, throwThe,
                        MonadExceptOf.throw] at h
                  | ok nid =>
                      rw [hg] at h
                      simp [bind, Except.bind, pure, Except.pure, Prod.mk.injEq] at h
                      obtain ⟨h1, h2⟩ := h
                      subst h2
                      subst h1
                      exact ⟨rfl, rfl, rfl, nid, rfl, rfl, rfl⟩

theorem checkEmailUnico_dup {id L : String} {autores : List Rec}
    (hwf : ∀ r ∈ autores, recGet r "id_autor" ≠ Val.f (.s id) →
      ∃ x, recGetD r "email" (Val.f (.s "")) = Val.f (.s x))
    (hdup : ∃ r ∈ autores, recGet r "id_autor" ≠ Val.f (.s id) ∧
      ∃ x, recGetD r "email" (Val.f (.s "")) = Val.f (.s x) ∧ pyLower (pyStrip x) = L) :
    checkEmailUnico id L autores = .error .emailDuplicado := by
  induction autores with
  | nil => obtain ⟨r, hr, _⟩ := hdup; exact absurd hr (List.not_mem_nil r)
  | cons a t ih =>
      by_cases hid : recGet a "id_autor" ≠ Val.f (.s id)
      · obtain ⟨x0, hx0⟩ := hwf a (List.mem_cons_self a t) hid
        by_cases hxL : pyLower (pyStrip x0) = L
        · simp [checkEmailUnico, hid, hx0, valStripLower, hxL,
            bind, Except.bind, pure, Except.pure, throw, throwThe, MonadExceptOf.throw]
        · have hdup' : ∃ r ∈ t, recGet r "id_autor" ≠ Val.f (.s id) ∧
              ∃ x, recGetD r "email" (Val.f (.s "")) = Val.f (.s x) ∧
                pyLower (pyStrip x) = L := by
            obtain ⟨r, hr, hrid, x, hx, hxL2⟩ := hdup
            rcases List.mem_cons.mp hr with hra | hrt
            · subst hra
              rw [hx0] at hx
              cases hx
              exact absurd hxL2 hxL
            · exact ⟨r, hrt, hrid, x, hx, hxL2⟩
          have ht := ih (fun r hr => hwf r (List.mem_cons_of_mem a hr)) hdup'
          simp [checkEmailUnico, hid, hx0, valStripLower, hxL, ht,
            bind, Except.bind, pure, Except.pure]
      · have hdup' : ∃ r ∈ t, recGet r "id_autor" ≠ Val.f (.s id) ∧
            ∃ x, recGetD r "email" (Val.f (.s "")) = Val.f (.s x) ∧
              pyLower (pyStrip x) = L := by
          obtain ⟨r, hr, hrid, x, hx, hxL2⟩ := hdup
          rcases List.mem_cons.mp hr with hra | hrt
          · subst hra; exact absurd hrid hid
          · exact ⟨r, hrt, hrid, x, hx, hxL2⟩
        have ht := ih (fun r hr => hwf r (List.mem_cons_of_mem a hr)) hdup'
        simp [checkEmailUnico, hid, ht, bind, Except.bind, pure, Except.pure]

/-! ## C7: case-insensitive email uniqueness -/

/-- C7: with valid inputs, `crear_autor` fails with `EmailDuplicado` when an
existing author has the same email up to case and surrounding whitespace;
`actualizar_autor` re-checks a changed email case-insensitively against all
other authors; and after a successful creation, creating a second author
whose email differs only in case fails with `EmailDuplicado`. -/
theorem C7_email_duplicado (autores : List Rec) :
    (∀ nombre email pw,
      esStrNoVacio nombre = true → validarEmailB email = true →
      emailsBienFormados autores →
      (∃ r ∈ autores, ∃ x, recGetD r "email" (Val.f (.s "")) = Val.f (.s x) ∧
        pyLower (pyStrip x) = pyLower (pyStrip email)) →
      crear_autor autores nombre email pw = (.error .emailDuplicado, autores)) ∧
    (∀ id datos idx e',
      idxPorCampo "id_autor" id autores = some idx →
      recHasKey datos "nombre_autor" = false →
      recHasKey datos "email" = true →
      recGet datos "email" = Val.f (.s e') →
      validarEmailB (pyLower (pyStrip e')) = true →
      (∀ r ∈ autores, recGet r "id_autor" ≠ Val.f (.s id) →
        ∃ x, recGetD r "email" (Val.f (.s "")) = Val.f (.s x)) →
      (∃ r ∈ autores, recGet r "id_autor" ≠ Val.f (.s id) ∧
        ∃ x, recGetD r "email" (Val.f (.s "")) = Val.f (.s x) ∧
          pyLower (pyStrip x) = pyLower (pyStrip e')) →
      actualizar_autor autores id datos = (.error .emailDuplicado, autores)) ∧
    (∀ n1 e1 p1 a st' n2 e2 p2,
      crear_autor autores n1 e1 p1 = (.ok a, st') →
      esStrNoVacio n2 = true →
      pyLower e2 = pyLower e1 →
      crear_autor st' n2 e2 p2 = (.error .emailDuplicado, st')) := by
  refine ⟨?_, ?_, ?_⟩
  · intro nombre email pw hn hv hwf hdup
    obtain ⟨b, hb⟩ := buscarEmailAux_some hwf hdup
    simp [crear_autor, crear_autor_core, hn, hv, hb,
      bind, Except.bind, pure, Except.pure, throw, throwThe, MonadExceptOf.throw]
  · intro id datos idx e' hidx hkn hke hve hvv hwf hdup
    have hchk := checkEmailUnico_dup hwf hdup
    simp [actualizar_autor, actualizar_autor_core, hidx, hkn, hke, hve, hvv,
      valStr, fvalStr, hchk,
      bind, Except.bind, pure, Except.pure, throw, throwThe, MonadExceptOf.throw]
  · intro n1 e1 p1 a st' n2 e2 p2 hok hn2 hvar
    obtain ⟨hn1, hv1, hscan, nid, hg, ha, hst⟩ := crear_autor_ok_inv hok
    have hv2 : validarEmailB e2 = true := by rw [validarEmailB_congr hvar]; exact hv1
    have hL : pyLower (pyStrip e2) = pyLower (pyStrip e1) := pyStripLower_congr hvar
    subst ha
    have hrecmail : recGetD
        [("id_autor", Val.f (.s (toString nid))),
         ("nombre_autor", Val.f (.s (pyStrip n1))),
         ("email", Val.f (.s (pyLower (pyStrip e1)))),
         ("password_hash", Val.f (.s (pyStrip p1)))] "email" (Val.f (.s "")) =
        Val.f (.s (pyLower (pyStrip e1))) := rfl
    have hscan2 : buscarEmailAux (pyLower (pyStrip e2)) st' =
        .ok (some [("id_autor", Val.f (.s (toString nid))),
          ("nombre_autor", Val.f (.s (pyStrip n1))),
          ("email", Val.f (.s (pyLower (pyStrip e1)))),
          ("password_hash", Val.f (.s (pyStrip p1)))]) := by
      rw [hst, hL, buscarEmailAux_append_none hscan]
      simp [buscarEmailAux, hrecmail, valStripLower, pyLowerStrip_idem,
        bind, Except.bind, pure, Except.pure]
    simp [crear_autor, crear_autor_core, hn2, hv2, hscan2,
      bind, Except.bind, pure, Except.pure, throw, throwThe, MonadExceptOf.throw]

/-- Witness for C7 at concrete collections. -/
theorem C7_email_duplicado_witness :
    crear_autor [[("id_autor", Val.f (.s "1")), ("email", Val.f (.s "a@b.co"))]]
      "Bea" "A@B.CO" "" =
      (.error .emailDuplicado, [[("id_autor", Val.f (.s "1")), ("email", Val.f (.s "a@b.co"))]]) ∧
    actualizar_autor
      [[("id_autor", Val.f (.s "1")), ("email", Val.f (.s "a@b.co"))],
       [("id_autor", Val.f (.s "2")), ("email", Val.f (.s "c@d.co"))]]
      "2" [("email", Val.f (.s "A@B.CO"))] =
      (.error .emailDuplicado,
        [[("id_autor", Val.f (.s "1")), ("email", Val.f (.s "a@b.co"))],
         [("id_autor", Val.f (.s "2")), ("email", Val.f (.s "c@d.co"))]]) ∧
    (crear_autor (crear_autor [] "Ana" "a@b.co" "").2 "Bea" "A@B.CO" "").1 =
      .error .emailDuplicado := by
  refine ⟨?_, ?_, ?_⟩
  · exact (C7_email_duplicado
      [[("id_autor", Val.f (.s "1")), ("email", Val.f (.s "a@b.co"))]]).1
      "Bea" "A@B.CO" "" (by decide) (by decide)
      (by intro r hr
          rw [List.mem_singleton] at hr
          subst hr
          exact ⟨"a@b.co", rfl⟩)
      ⟨[("id_autor", Val.f (.s "1")), ("email", Val.f (.s "a@b.co"))],
        List.mem_singleton.mpr rfl, "a@b.co", rfl, by decide⟩
  · exact (C7_email_duplicado
      [[("id_autor", Val.f (.s "1")), ("email", Val.f (.s "a@b.co"))],
       [("id_autor", Val.f (.s "2")), ("email", Val.f (.s "c@d.co"))]]).2.1
      "2" [("email", Val.f (.s "A@B.CO"))] 1 "A@B.CO"
      (by decide) (by decide) (by decide) (by decide) (by decide)
      (by intro r hr hne
          rcases List.mem_cons.mp hr with h1 | h2
          · subst h1; exact ⟨"a@b.co", rfl⟩
          · rw [List.mem_singleton] at h2
            subst h2
            exact ⟨"c@d.co", rfl⟩)
      ⟨[("id_autor", Val.f (.s "1")), ("email", Val.f (.s "a@b.co"))],
        List.mem_cons_self _ _, by decide, "a@b.co", rfl, by decide⟩
  · have h := (C7_email_duplicado []).2.2 "Ana" "a@b.co" ""
      [("id_autor", Val.f (.s "1")), ("nombre_autor", Val.f (.s "Ana")),
       ("email", Val.f (.s "a@b.co")), ("password_hash", Val.f (.s ""))]
      [[("id_autor", Val.f (.s "1")), ("nombre_autor", Val.f (.s "Ana")),
        ("email", Val.f (.s "a@b.co")), ("password_hash", Val.f (.s ""))]]
      "Bea" "A@B.CO" "" (by decide) (by decide) (by decide)
    rw [show (crear_autor [] "Ana" "a@b.co" "").2 =
      [[("id_autor", Val.f (.s "1")), ("nombre_autor", Val.f (.s "Ana")),
        ("email", Val.f (.s "a@b.co")), ("password_hash", Val.f (.s ""))]] by decide]
    rw [h]

/-! ## C8: create then find by any case variant of the email -/

/-- C8: after a successful `crear_autor`, `buscar_autor_por_email` with any
case variant of the email returns exactly the created record (so in
particular a record whose id is the id the creation assigned). -/
theorem C8_crear_buscar_variante (autores : List Rec) (nombre email pw : String)
    (variante : String) (a : Rec) (st' : List Rec)
    (hok : crear_autor autores nombre email pw = (.ok a, st'))
    (hvar : pyLower variante = pyLower email) :
    buscar_autor_por_email st' variante = .ok (some a) := by
  obtain ⟨hn1, hv1, hscan, nid, hg, ha, hst⟩ := crear_autor_ok_inv hok
  have hv2 : validarEmailB variante = true := by rw [validarEmailB_congr hvar]; exact hv1
  have hL : pyLower (pyStrip variante) = pyLower (pyStrip email) := pyStripLower_congr hvar
  subst ha
  have hrecmail : recGetD
      [("id_autor", Val.f (.s (toString nid))),
       ("nombre_autor", Val.f (.s (pyStrip nombre))),
       ("email", Val.f (.s (pyLower (pyStrip email)))),
       ("password_hash", Val.f (.s (pyStrip pw)))] "email" (Val.f (.s "")) =
      Val.f (.s (pyLower (pyStrip email))) := rfl
  have hscan2 : buscarEmailAux (pyLower (pyStrip variante)) st' =
      .ok (some [("id_autor", Val.f (.s (toString nid))),
        ("nombre_autor", Val.f (.s (pyStrip nombre))),
        ("email", Val.f (.s (pyLower (pyStrip email)))),
        ("password_hash", Val.f (.s (pyStrip pw)))]) := by
    rw [hst, hL, buscarEmailAux_append_none hscan]
    simp [buscarEmailAux, hrecmail, valStripLower, pyLowerStrip_idem,
      bind, Except.bind, pure, Except.pure]
  simp [buscar_autor_por_email, hv2, hscan2, bind, Except.bind, pure, Except.pure]

/-- Witness for C8 at a concrete creation and case variant. -/
theorem C8_crear_buscar_variante_witness :
    buscar_autor_por_email (crear_autor [] "Ana" "a@b.co" "").2 "A@B.Co" =
      .ok (some [("id_autor", Val.f (.s "1")), ("nombre_autor", Val.f (.s "Ana")),
        ("email", Val.f (.s "a@b.co")), ("password_hash", Val.f (.s ""))]) := by
  rw [show (crear_autor [] "Ana" "a@b.co" "").2 =
    [[("id_autor", Val.f (.s "1")), ("nombre_autor", Val.f (.s "Ana")),
      ("email", Val.f (.s "a@b.co")), ("password_hash", Val.f (.s ""))]] by decide]
  exact C8_crear_buscar_variante [] "Ana" "a@b.co" "" "A@B.Co"
    [("id_autor", Val.f (.s "1")), ("nombre_autor", Val.f (.s "Ana")),
     ("email", Val.f (.s "a@b.co")), ("password_hash", Val.f (.s ""))]
    [[("id_autor", Val.f (.s "1")), ("nombre_autor", Val.f (.s "Ana")),
      ("email", Val.f (.s "a@b.co")), ("password_hash", Val.f (.s ""))]]
    (by decide) (by decide)

end Blog
